import Mathlib

/-!
Verification of the Form 20 extraction pipeline (classifier, tiered
extraction orchestration, rate-limited parallel page extraction, quality
gating and progress tracking) against its design specification.

Each Python component named in a claim is shallowly embedded as an
executable Lean definition; machine arithmetic does not occur (all scores,
counters and clocks are exact `Nat`/`ℚ` values, as in Python).
-/

/- ## Rate limiter (`wait_for_rate_limit`, gemini_vision_extractor_ultrafast.py) -/

/-- The 60-second sliding window used by `wait_for_rate_limit`. -/
def rl_window : ℚ := 60

/-- The call ceiling of the ultrafast extractor: the code sleeps only when
more than 1800 calls are recorded in the window. -/
def rl_ceiling : Nat := 1800

/-- State of the shared rate-limit tracker: the simulated wall clock and the
`api_call_times` list of recorded call timestamps. -/
structure RLState where
  clock : ℚ
  times : List ℚ
deriving DecidableEq

/-- One pass through `wait_for_rate_limit` followed by the API call it
guards, on a simulated clock: read `now`, drop timestamps older than 60 s,
sleep `minDelay + jitter` (advancing the clock) when more than `rl_ceiling`
recent calls are recorded, append the pre-sleep timestamp `now`, and issue
the call when the function returns.  Returns the new state and the time at
which the guarded call is issued. -/
def wait_for_rate_limit (minDelay jitter : ℚ) (s : RLState) : RLState × ℚ :=
  let now := s.clock
  let recent := s.times.filter (fun t => decide (now - t < rl_window))
  if rl_ceiling < recent.length then
    (⟨now + (minDelay + jitter), recent ++ [now]⟩, now + (minDelay + jitter))
  else
    (⟨now, recent ++ [now]⟩, now)

/-- Issue `n` back-to-back calls through the limiter (no work between
calls, so the clock advances only by the limiter's own sleeps), collecting
the times at which the calls are issued. -/
def rl_run (minDelay jitter : ℚ) : Nat → RLState × List ℚ
  | 0 => (⟨0, []⟩, [])
  | n + 1 =>
    let p := rl_run minDelay jitter n
    let q := wait_for_rate_limit minDelay jitter p.1
    (q.1, p.2 ++ [q.2])

lemma rl_run_first_calls (minDelay jitter : ℚ) :
    ∀ i, i ≤ rl_ceiling + 1 →
      rl_run minDelay jitter i = (⟨0, List.replicate i 0⟩, List.replicate i 0) := by
  intro i
  induction i with
  | zero => intro _; rfl
  | succ i ih =>
    intro hle
    have hi : i ≤ rl_ceiling + 1 := Nat.le_of_succ_le hle
    have hi' : i ≤ rl_ceiling := Nat.lt_succ_iff.mp hle
    rw [rl_run, ih hi]
    have hfilter :
        (List.replicate i (0 : ℚ)).filter (fun t => decide ((0 : ℚ) - t < rl_window)) =
          List.replicate i 0 := by
      apply List.filter_eq_self.mpr
      intro a ha
      rw [List.eq_of_mem_replicate ha]
      rw [decide_eq_true_iff]
      norm_num [rl_window]
    simp only [wait_for_rate_limit, hfilter, List.length_replicate]
    rw [if_neg (by omega)]
    simp [List.replicate_succ']

lemma rl_run_issue_times_mono (minDelay jitter : ℚ) :
    ∀ m n, m ≤ n → ∃ rest, (rl_run minDelay jitter n).2 = (rl_run minDelay jitter m).2 ++ rest := by
  intro m n
  induction n with
  | zero =>
    intro h
    exact ⟨[], by simp [Nat.le_zero.mp h]⟩
  | succ n ih =>
    intro h
    rcases Nat.eq_or_lt_of_le h with h' | h'
    · exact ⟨[], by simp [h']⟩
    · obtain ⟨rest, hrest⟩ := ih (Nat.lt_succ_iff.mp h')
      refine ⟨rest ++ [(wait_for_rate_limit minDelay jitter (rl_run minDelay jitter n).1).2], ?_⟩
      rw [rl_run]
      simp [hrest]

/- ## Per-page extraction data (shared by the parallel extractors) -/

/-- One polling-station row of the `serial_no_wise_details` array. -/
structure StationRow where
  serialNo : Nat
  totalValid : Nat
  rejected : Nat
  nota : Nat
  total : Nat
  candidateVotes : List Nat
deriving DecidableEq

/-- The JSON object one page-level extraction call returns. -/
structure PageData where
  constituencyNumber : Option Nat
  constituencyName : Option String
  totalElectors : Option Nat
  serialDetails : List StationRow
  candidates : List String
deriving DecidableEq

/- ## Retry wrapper (`extract_form20_with_gemini_vision_retry`,
gemini_vision_extractor_ultrafast.py) -/

/-- `startsWithChars needle hay`: `hay` begins with `needle`. -/
def startsWithChars : List Char → List Char → Bool
  | [], _ => true
  | _ :: _, [] => false
  | c :: cs, d :: ds => c == d && startsWithChars cs ds

/-- `hasSubChars needle hay`: Python's `needle in hay` on strings. -/
def hasSubChars (needle : List Char) : List Char → Bool
  | [] => startsWithChars needle []
  | c :: cs => startsWithChars needle (c :: cs) || hasSubChars needle cs

/-- Character-wise lowercasing (`str.lower()`; the patterns searched for
are ASCII, for which `Char.toLower` agrees with Python's `lower`). -/
def lowerChars : List Char → List Char
  | [] => []
  | c :: cs => c.toLower :: lowerChars cs

/-- The transient-failure test of the retry wrapper:
`'503' in error_str or 'overloaded' in error_str.lower() or 'deadline' in
error_str.lower()`. -/
def isTransientError (e : String) : Bool :=
  hasSubChars ("503").toList e.toList ||
  hasSubChars ("overloaded").toList (lowerChars e.toList) ||
  hasSubChars ("deadline").toList (lowerChars e.toList)

/-- What one attempt of the page-extraction body can do: return parsed
JSON, return no parsable JSON, or raise an exception with a message. -/
inductive AttemptOutcome where
  | parsed (d : PageData)
  | noJson
  | raised (msg : String)

/-- The `for attempt in range(max_retries)` loop of
`extract_form20_with_gemini_vision_retry`, with `fuel` the number of loop
iterations left and `attempt` the current index.  Besides the `(page_num,
data-or-None)` pair the embedding also returns how many attempts were
executed.  A parsed response returns the data; an unparsable response
returns `None` at once; a raised transient error retries while
`attempt < max_retries - 1` and returns `None` when attempts are
exhausted; any other exception returns `None` at once. -/
def retryAux (pageNum : Nat) (behav : Nat → AttemptOutcome) (maxRetries : Nat) :
    Nat → Nat → (Nat × Option PageData) × Nat
  | 0, attempt => ((pageNum, none), attempt)
  | fuel + 1, attempt =>
    match behav attempt with
    | .parsed d => ((pageNum, some d), attempt + 1)
    | .noJson => ((pageNum, none), attempt + 1)
    | .raised msg =>
      if isTransientError msg then
        if attempt < maxRetries - 1 then
          retryAux pageNum behav maxRetries fuel (attempt + 1)
        else ((pageNum, none), attempt + 1)
      else ((pageNum, none), attempt + 1)

/-- `extract_form20_with_gemini_vision_retry`: run the attempt loop from
attempt 0 with `max_retries` iterations available. -/
def extract_form20_with_gemini_vision_retry
    (pageNum : Nat) (behav : Nat → AttemptOutcome) (maxRetries : Nat) :
    (Nat × Option PageData) × Nat :=
  retryAux pageNum behav maxRetries maxRetries 0

lemma retryAux_success (pageNum : Nat) (behav : Nat → AttemptOutcome) (maxRetries : Nat) :
    ∀ fuel attempt k d, attempt + fuel = maxRetries → attempt ≤ k → k < maxRetries →
      (∀ i, attempt ≤ i → i < k → ∃ m, behav i = .raised m ∧ isTransientError m = true) →
      behav k = .parsed d →
      retryAux pageNum behav maxRetries fuel attempt = ((pageNum, some d), k + 1) := by
  intro fuel
  induction fuel with
  | zero =>
    intro attempt k d hinv hak hk _ _
    omega
  | succ fuel ih =>
    intro attempt k d hinv hak hk htrans hsucc
    rcases Nat.eq_or_lt_of_le hak with heq | hlt
    · subst heq
      simp [retryAux, hsucc]
    · obtain ⟨m, hm, hmt⟩ := htrans attempt le_rfl hlt
      have hbranch : attempt < maxRetries - 1 := by omega
      simp only [retryAux, hm, hmt, if_pos hbranch, if_true]
      exact ih (attempt + 1) k d (by omega) hlt hk
        (fun i hi hik => htrans i (by omega) hik) hsucc

lemma retryAux_exhaust (pageNum : Nat) (behav : Nat → AttemptOutcome) (maxRetries : Nat) :
    ∀ fuel attempt, attempt + fuel = maxRetries → 0 < fuel →
      (∀ i, attempt ≤ i → i < maxRetries → ∃ m, behav i = .raised m ∧ isTransientError m = true) →
      retryAux pageNum behav maxRetries fuel attempt = ((pageNum, none), maxRetries) := by
  intro fuel
  induction fuel with
  | zero => intro attempt _ h; omega
  | succ fuel ih =>
    intro attempt hinv _ htrans
    obtain ⟨m, hm, hmt⟩ := htrans attempt le_rfl (by omega)
    by_cases hbranch : attempt < maxRetries - 1
    · simp only [retryAux, hm, hmt, if_pos hbranch, if_true]
      exact ih (attempt + 1) (by omega) (by omega)
        (fun i hi hik => htrans i (by omega) hik)
    · have hlast : attempt + 1 = maxRetries := by omega
      simp only [retryAux, hm, hmt, if_neg hbranch, if_true, hlast]

/- ## Parallel page-result collection and in-order merge
(`process_type3_pdf_with_gemini_vision_parallel`,
`process_loksabha_pdf_ultrafast`) -/

/-- The `page_results` dict built inside the `as_completed` loop: each
completed future contributes its `(page_num, page_data)` pair, and pairs
whose data is `None` (failed pages) are not inserted.  The argument lists
the futures' results in completion order. -/
def collectResults : List (Nat × Option PageData) → List (Nat × PageData)
  | [] => []
  | e :: rest =>
    match e.2 with
    | some d => (e.1, d) :: collectResults rest
    | none => collectResults rest

/-- `page_results[page_num]` lookup. -/
def lookupPage (k : Nat) : List (Nat × PageData) → Option PageData
  | [] => none
  | e :: rest => if e.1 = k then some e.2 else lookupPage k rest

/-- The `combined_data` accumulator of the merge loop. -/
structure CombinedData where
  constituencyNumber : Option Nat
  constituencyName : Option String
  totalElectors : Option Nat
  serialDetails : List StationRow
  candidates : List String
  candidateNames : List String
deriving DecidableEq

/-- `combined_data` as initialised before the merge loop. -/
def emptyCombined : CombinedData :=
  { constituencyNumber := none, constituencyName := none, totalElectors := none,
    serialDetails := [], candidates := [], candidateNames := [] }

/-- One iteration of the merge loop body: page 1 contributes the
constituency header fields and (when non-empty) the candidate list, and
every page appends its `serial_no_wise_details` rows. -/
def mergePage (acc : CombinedData) (pageNum : Nat) (d : PageData) : CombinedData :=
  let acc :=
    if pageNum = 1 then
      { acc with
        constituencyNumber := d.constituencyNumber
        constituencyName := d.constituencyName
        totalElectors := d.totalElectors
        candidates := if d.candidates.isEmpty then acc.candidates else d.candidates
        candidateNames := if d.candidates.isEmpty then acc.candidateNames else d.candidates }
    else acc
  { acc with serialDetails := acc.serialDetails ++ d.serialDetails }

/-- The merge loop over a collected `page_results` dict:
`for page_num in sorted(page_results.keys())`, folding `mergePage` over the
entries in ascending page order. -/
def mergeFold (results : List (Nat × PageData)) : CombinedData :=
  (List.insertionSort (· ≤ ·) (results.map Prod.fst)).foldl
    (fun acc k =>
      match lookupPage k results with
      | some d => mergePage acc k d
      | none => acc)
    emptyCombined

/-- The merge phase applied to the futures' results in completion order:
collect the successful pages into `page_results`, then merge them in
ascending page order. -/
def mergeResults (completions : List (Nat × Option PageData)) : CombinedData :=
  mergeFold (collectResults completions)

/-- The futures submitted by the executor loop: unit `i` (0-based) of the
pages to process is submitted with `page_num = i + 1`; `submissionList s us`
is that list of `(page_num, result)` pairs starting at page number `s`. -/
def submissionList : Nat → List PageData → List (Nat × Option PageData)
  | _, [] => []
  | s, u :: us => (s, some u) :: submissionList (s + 1) us

/-- All pages of `submissionList s us` succeed, so collecting them yields
the indexed pages themselves. -/
def indexedPages : Nat → List PageData → List (Nat × PageData)
  | _, [] => []
  | s, u :: us => (s, u) :: indexedPages (s + 1) us

lemma collect_submissionList : ∀ s us, collectResults (submissionList s us) = indexedPages s us := by
  intro s us
  induction us generalizing s with
  | nil => rfl
  | cons u us ih => simp [submissionList, indexedPages, collectResults, ih]

lemma mergePage_serialDetails (acc : CombinedData) (k : Nat) (d : PageData) :
    (mergePage acc k d).serialDetails = acc.serialDetails ++ d.serialDetails := by
  unfold mergePage
  by_cases hk : k = 1 <;> simp [hk]

lemma collect_perm : ∀ {c₁ c₂ : List (Nat × Option PageData)}, c₁.Perm c₂ →
    (collectResults c₁).Perm (collectResults c₂) := by
  intro c₁ c₂ h
  induction h with
  | nil => exact List.Perm.refl _
  | cons x _ ih =>
    rcases x with ⟨n, d⟩
    cases d with
    | some d => simpa [collectResults] using ih.cons (n, d)
    | none => simpa [collectResults] using ih
  | swap x y l =>
    rcases x with ⟨n, d⟩
    rcases y with ⟨n', d'⟩
    cases d with
    | some d =>
      cases d' with
      | some d' => simpa [collectResults] using List.Perm.swap (n, d) (n', d') (collectResults l)
      | none => simp [collectResults]
    | none =>
      cases d' with
      | some d' => simp [collectResults]
      | none => simp [collectResults]
  | trans _ _ ih₁ ih₂ => exact ih₁.trans ih₂

lemma collect_keys_mem : ∀ {c : List (Nat × Option PageData)} {k : Nat},
    k ∈ (collectResults c).map Prod.fst → k ∈ c.map Prod.fst := by
  intro c
  induction c with
  | nil => intro k h; simp [collectResults] at h
  | cons e rest ih =>
    intro k h
    rcases e with ⟨n, d⟩
    cases d with
    | some d =>
      simp only [collectResults, List.map_cons, List.mem_cons] at h
      rcases h with h | h
      · simp [h]
      · exact List.mem_cons_of_mem _ (ih h)
    | none =>
      simp only [collectResults] at h
      exact List.mem_cons_of_mem _ (ih h)

lemma collect_keys_nodup : ∀ {c : List (Nat × Option PageData)},
    (c.map Prod.fst).Nodup → ((collectResults c).map Prod.fst).Nodup := by
  intro c
  induction c with
  | nil => intro _; simp [collectResults]
  | cons e rest ih =>
    intro h
    rcases e with ⟨n, d⟩
    simp only [List.map_cons, List.nodup_cons] at h
    cases d with
    | some d =>
      simp only [collectResults, List.map_cons, List.nodup_cons]
      exact ⟨fun hmem => h.1 (collect_keys_mem hmem), ih h.2⟩
    | none => exact ih h.2

lemma lookupPage_perm : ∀ {l₁ l₂ : List (Nat × PageData)}, l₁.Perm l₂ →
    (l₁.map Prod.fst).Nodup → ∀ k, lookupPage k l₁ = lookupPage k l₂ := by
  intro l₁ l₂ h
  induction h with
  | nil => intro _ k; rfl
  | cons x _ ih =>
    intro hnd k
    rcases x with ⟨n, d⟩
    simp only [List.map_cons, List.nodup_cons] at hnd
    by_cases hk : n = k
    · simp [lookupPage, hk]
    · simp [lookupPage, hk, ih hnd.2 k]
  | swap x y l =>
    intro hnd k
    rcases x with ⟨n, d⟩
    rcases y with ⟨n', d'⟩
    simp only [List.map_cons, List.nodup_cons, List.mem_cons] at hnd
    have hne : n' ≠ n := fun hcontra => hnd.1 (Or.inl hcontra)
    by_cases hk : n = k
    · subst hk
      simp [lookupPage, hne]
    · by_cases hk' : n' = k <;> simp [lookupPage, hk, hk']
  | trans h₁ _ ih₁ ih₂ =>
    intro hnd k
    have hnd' := ((h₁.map Prod.fst).nodup_iff).mp hnd
    exact (ih₁ hnd k).trans (ih₂ hnd' k)

lemma foldl_merge_congr (r₁ r₂ : List (Nat × PageData))
    (hl : ∀ k, lookupPage k r₁ = lookupPage k r₂) (keys : List Nat) (acc : CombinedData) :
    keys.foldl
        (fun acc k => match lookupPage k r₁ with | some d => mergePage acc k d | none => acc)
        acc =
      keys.foldl
        (fun acc k => match lookupPage k r₂ with | some d => mergePage acc k d | none => acc)
        acc := by
  have hfun :
      (fun (acc : CombinedData) k =>
        match lookupPage k r₁ with | some d => mergePage acc k d | none => acc) =
      (fun (acc : CombinedData) k =>
        match lookupPage k r₂ with | some d => mergePage acc k d | none => acc) := by
    funext acc k
    rw [hl k]
  rw [hfun]

/-- Reassembly is completion-order independent: two completion orders that
are permutations of each other (with no duplicate page number) merge to the
same combined output. -/
lemma mergeResults_perm {c₁ c₂ : List (Nat × Option PageData)} (h : c₁.Perm c₂)
    (hnd : (c₁.map Prod.fst).Nodup) : mergeResults c₁ = mergeResults c₂ := by
  have hres : (collectResults c₁).Perm (collectResults c₂) := collect_perm h
  have hnd₁ : ((collectResults c₁).map Prod.fst).Nodup := collect_keys_nodup hnd
  have hperm : (List.insertionSort (· ≤ ·) ((collectResults c₁).map Prod.fst)).Perm
      (List.insertionSort (· ≤ ·) ((collectResults c₂).map Prod.fst)) :=
    ((List.perm_insertionSort _ _).trans (hres.map Prod.fst)).trans
      (List.perm_insertionSort _ _).symm
  have hs₁ : List.Sorted (· ≤ ·)
      (List.insertionSort (· ≤ ·) ((collectResults c₁).map Prod.fst)) :=
    List.sorted_insertionSort _ _
  have hs₂ : List.Sorted (· ≤ ·)
      (List.insertionSort (· ≤ ·) ((collectResults c₂).map Prod.fst)) :=
    List.sorted_insertionSort _ _
  have hkeys := List.eq_of_perm_of_sorted hperm hs₁ hs₂
  unfold mergeResults mergeFold
  rw [hkeys]
  exact foldl_merge_congr _ _ (lookupPage_perm hres hnd₁) _ _

lemma indexedPages_keys_lb : ∀ {s : Nat} {us : List PageData} {k : Nat},
    k ∈ (indexedPages s us).map Prod.fst → s ≤ k := by
  intro s us
  induction us generalizing s with
  | nil => intro k h; simp [indexedPages] at h
  | cons u us ih =>
    intro k h
    simp only [indexedPages, List.map_cons, List.mem_cons] at h
    rcases h with h | h
    · omega
    · exact Nat.le_of_succ_le (ih h)

lemma indexedPages_keys_sorted : ∀ s us, List.Sorted (· < ·) ((indexedPages s us).map Prod.fst) := by
  intro s us
  induction us generalizing s with
  | nil => simp [indexedPages]
  | cons u us ih =>
    simp only [indexedPages, List.map_cons, List.sorted_cons]
    exact ⟨fun b hb => Nat.lt_of_succ_le (indexedPages_keys_lb hb), ih (s + 1)⟩

lemma lookupPage_head (n : Nat) (d : PageData) (r : List (Nat × PageData)) :
    lookupPage n ((n, d) :: r) = some d := by
  simp [lookupPage]

lemma foldl_merge_skip_head (n : Nat) (d : PageData) (r : List (Nat × PageData)) :
    ∀ (keys : List Nat) (acc : CombinedData), (∀ k ∈ keys, k ≠ n) →
      keys.foldl
          (fun acc k =>
            match lookupPage k ((n, d) :: r) with | some d => mergePage acc k d | none => acc)
          acc =
        keys.foldl
          (fun acc k => match lookupPage k r with | some d => mergePage acc k d | none => acc)
          acc := by
  intro keys
  induction keys with
  | nil => intro acc _; rfl
  | cons k keys ih =>
    intro acc hne
    have hk : n ≠ k := fun hcontra => hne k (List.mem_cons_self k keys) hcontra.symm
    simp only [List.foldl_cons, lookupPage, if_neg hk]
    exact ih _ (fun k' hk' => hne k' (List.mem_cons_of_mem _ hk'))

lemma foldl_merge_indexed : ∀ (us : List PageData) (s : Nat) (acc : CombinedData),
    (((indexedPages s us).map Prod.fst).foldl
        (fun acc k =>
          match lookupPage k (indexedPages s us) with | some d => mergePage acc k d | none => acc)
        acc).serialDetails =
      acc.serialDetails ++ us.flatMap (fun u => u.serialDetails) := by
  intro us
  induction us with
  | nil => intro s acc; simp [indexedPages]
  | cons u us ih =>
    intro s acc
    have hstep : indexedPages s (u :: us) = (s, u) :: indexedPages (s + 1) us := rfl
    rw [hstep, List.map_cons, List.foldl_cons, lookupPage_head,
      foldl_merge_skip_head s u (indexedPages (s + 1) us) _ _
        (fun k hk hcontra => by have := indexedPages_keys_lb hk; omega)]
    rw [ih (s + 1) (mergePage acc s u), mergePage_serialDetails]
    simp [List.flatMap_cons]

lemma mergeResults_submission (us : List PageData) :
    (mergeResults (submissionList 1 us)).serialDetails =
      us.flatMap (fun u => u.serialDetails) := by
  unfold mergeResults mergeFold
  rw [collect_submissionList]
  have hs := indexedPages_keys_sorted 1 us
  have hle : List.Sorted (· ≤ ·) ((indexedPages 1 us).map Prod.fst) :=
    hs.imp (fun h => le_of_lt h)
  rw [List.Sorted.insertionSort_eq hle]
  simpa using foldl_merge_indexed us 1 emptyCombined

lemma submissionList_keys : ∀ s us,
    (submissionList s us).map Prod.fst = (indexedPages s us).map Prod.fst := by
  intro s us
  induction us generalizing s with
  | nil => rfl
  | cons u us ih => simp [submissionList, indexedPages, ih]

lemma mergeResults_perm_submission (us : List PageData)
    {c : List (Nat × Option PageData)} (h : c.Perm (submissionList 1 us)) :
    (mergeResults c).serialDetails = us.flatMap (fun u => u.serialDetails) := by
  have hnd : ((submissionList 1 us).map Prod.fst).Nodup := by
    rw [submissionList_keys]
    exact (indexedPages_keys_sorted 1 us).imp (fun h => ne_of_lt h)
  have hndc : (c.map Prod.fst).Nodup := ((h.map Prod.fst).nodup_iff).mpr hnd
  rw [mergeResults_perm h hndc]
  exact mergeResults_submission us

/- ## Pages submitted to the executor (`pages_to_process`, the
`page_files[:-2]` slice of both parallel extractors) -/

/-- `pages_to_process = page_files[:-2] if len(page_files) > 2 else
page_files`. -/
def pages_to_process (pageFiles : List String) : List String :=
  if 2 < pageFiles.length then pageFiles.take (pageFiles.length - 2) else pageFiles

/-- `pages_skipped` as recorded in the combined output:
`len(page_files) - len(pages_to_process)`. -/
def pages_skipped (pageFiles : List String) : Nat :=
  pageFiles.length - (pages_to_process pageFiles).length

/-- The page numbers handed to the executor: unit `i` (0-based) of
`pages_to_process` is submitted with `page_num = i + 1`. -/
def submittedPageNums (pageFiles : List String) : List Nat :=
  (List.range (pages_to_process pageFiles).length).map (· + 1)

/- ## Concrete demonstration data used by the witnesses -/

/-- Demonstration station row on page 1. -/
def rowA : StationRow := ⟨1, 100, 2, 3, 105, [40, 60]⟩

/-- Demonstration station row on page 2. -/
def rowB : StationRow := ⟨2, 200, 1, 0, 201, [120, 80]⟩

/-- Demonstration station row on page 3. -/
def rowC : StationRow := ⟨3, 300, 5, 2, 307, [150, 150]⟩

/-- Demonstration page 1 (carries the constituency header). -/
def pdA : PageData := ⟨some 5, some ("Alpha"), some 1000, [rowA], [("X"), ("Y")]⟩

/-- Demonstration page 2. -/
def pdB : PageData := ⟨none, none, none, [rowB], []⟩

/-- Demonstration page 3. -/
def pdC : PageData := ⟨none, none, none, [rowC], []⟩

/-- A transient failure message (HTTP 503 / overloaded). -/
def msg503 : String := "503 The model is overloaded"

/-- A non-transient failure message. -/
def msgBad : String := "invalid argument"

/-- Attempt behaviour that fails transiently once, then succeeds. -/
def behavSucceedAfterOne : Nat → AttemptOutcome :=
  fun i => if i = 0 then .raised msg503 else .parsed pdA

/-- Attempt behaviour that always fails transiently. -/
def behavAlways503 : Nat → AttemptOutcome := fun _ => .raised msg503

/-- Attempt behaviour that raises a non-transient error at once. -/
def behavNonTransient : Nat → AttemptOutcome := fun _ => .raised msgBad

/- ## Claim C2 -/

/-- C2: for every set of per-unit (per-page) extraction results produced by
the parallel executor, the reassembled combined output lists unit results in
original submission-index order regardless of the order in which workers
complete them: merging is invariant under permutation of the completion
order (no duplicate page numbers), and any completion order of units
submitted as pages `1, 2, …` yields their station rows concatenated in
submission order. -/
theorem C2_reassembly_preserves_submission_order :
    (∀ c₁ c₂ : List (Nat × Option PageData), c₁.Perm c₂ → (c₁.map Prod.fst).Nodup →
      mergeResults c₁ = mergeResults c₂) ∧
    (∀ (us : List PageData) (c : List (Nat × Option PageData)),
      c.Perm (submissionList 1 us) →
      (mergeResults c).serialDetails = us.flatMap (fun u => u.serialDetails)) :=
  ⟨fun _ _ h hnd => mergeResults_perm h hnd,
   fun us _ h => mergeResults_perm_submission us h⟩

/-- Witness for C2: units `[A, B, C]` completing in reversed order still
merge to rows `A ++ B ++ C`. -/
theorem C2_reassembly_preserves_submission_order_witness :
    ([(3, some pdC), (2, some pdB), (1, some pdA)] : List (Nat × Option PageData)).Perm
        (submissionList 1 [pdA, pdB, pdC]) ∧
      (mergeResults [(3, some pdC), (2, some pdB), (1, some pdA)]).serialDetails =
        [pdA, pdB, pdC].flatMap (fun u => u.serialDetails) :=
  ⟨by decide,
   C2_reassembly_preserves_submission_order.2 [pdA, pdB, pdC]
     [(3, some pdC), (2, some pdB), (1, some pdA)] (by decide)⟩

/- ## Claim C3 -/

/-- C3: the retry wrapper returns the successful result after `k <
max_retries` transient failures followed by a success (having executed
`k + 1` attempts); it returns the failed-unit value `(page_num, none)` after
`max_retries` transient failures (executing exactly `max_retries` attempts,
neither hanging nor dropping the unit); and a non-transient failure returns
the failed-unit value after a single attempt, with no retry. -/
theorem C3_retry_policy (pageNum : Nat) (behav : Nat → AttemptOutcome) (maxRetries : Nat) :
    (∀ k d, k < maxRetries →
      (∀ i, i < k → ∃ m, behav i = .raised m ∧ isTransientError m = true) →
      behav k = .parsed d →
      extract_form20_with_gemini_vision_retry pageNum behav maxRetries =
        ((pageNum, some d), k + 1)) ∧
    (0 < maxRetries →
      (∀ i, i < maxRetries → ∃ m, behav i = .raised m ∧ isTransientError m = true) →
      extract_form20_with_gemini_vision_retry pageNum behav maxRetries =
        ((pageNum, none), maxRetries)) ∧
    (∀ m, 0 < maxRetries → behav 0 = .raised m → isTransientError m = false →
      extract_form20_with_gemini_vision_retry pageNum behav maxRetries =
        ((pageNum, none), 1)) := by
  refine ⟨?_, ?_, ?_⟩
  · intro k d hk htrans hsucc
    exact retryAux_success pageNum behav maxRetries maxRetries 0 k d (by omega)
      (Nat.zero_le k) hk (fun i _ hik => htrans i hik) hsucc
  · intro hpos htrans
    exact retryAux_exhaust pageNum behav maxRetries maxRetries 0 (by omega) hpos
      (fun i _ hik => htrans i hik)
  · intro m hpos hraised hnontrans
    obtain ⟨mr, hmr⟩ : ∃ mr, maxRetries = mr + 1 := ⟨maxRetries - 1, by omega⟩
    subst hmr
    simp [extract_form20_with_gemini_vision_retry, retryAux, hraised, hnontrans]

/-- Witness for C3, at `max_retries = 2` (the ultrafast extractor's
default): one transient failure then success returns the data; two
transient failures return the failed unit; a non-transient failure returns
the failed unit after one attempt. -/
theorem C3_retry_policy_witness :
    extract_form20_with_gemini_vision_retry 7 behavSucceedAfterOne 2 = ((7, some pdA), 2) ∧
    extract_form20_with_gemini_vision_retry 7 behavAlways503 2 = ((7, none), 2) ∧
    extract_form20_with_gemini_vision_retry 7 behavNonTransient 2 = ((7, none), 1) := by
  refine ⟨?_, ?_, ?_⟩
  · refine (C3_retry_policy 7 behavSucceedAfterOne 2).1 1 pdA (by decide) ?_ rfl
    intro i hi
    have hz : i = 0 := by omega
    subst hz
    exact ⟨msg503, rfl, by decide⟩
  · exact (C3_retry_policy 7 behavAlways503 2).2.1 (by decide)
      (fun i _ => ⟨msg503, rfl, by decide⟩)
  · exact (C3_retry_policy 7 behavNonTransient 2).2.2 msgBad (by decide) rfl (by decide)

/- ## Claim C4 -/

/-- C4 as stated is FALSE: submitting `2 × rl_ceiling` back-to-back calls,
the rolling window `[0, 60)` receives strictly more than `rl_ceiling`
issued calls (the first `rl_ceiling + 1` submissions are all issued at
clock 0, since the limiter only sleeps — and then still issues — once the
recorded window count already exceeds the ceiling). -/
theorem C4_counterexample :
    rl_ceiling <
      (rl_run (1 / 10) 0 (2 * rl_ceiling)).2.countP
        (fun t => decide (0 ≤ t ∧ t < rl_window)) := by
  obtain ⟨rest, hrest⟩ :=
    rl_run_issue_times_mono (1 / 10) 0 (rl_ceiling + 1) (2 * rl_ceiling)
      (by norm_num [rl_ceiling])
  have h1 := rl_run_first_calls (1 / 10) 0 (rl_ceiling + 1) le_rfl
  have h2 : (rl_run (1 / 10) 0 (rl_ceiling + 1)).2 = List.replicate (rl_ceiling + 1) 0 := by
    rw [h1]
  rw [hrest, h2, List.countP_append]
  have h3 : (List.replicate (rl_ceiling + 1) (0 : ℚ)).countP
      (fun t => decide (0 ≤ t ∧ t < rl_window)) = rl_ceiling + 1 := by
    rw [List.countP_eq_length.mpr, List.length_replicate]
    intro a ha
    rw [List.eq_of_mem_replicate ha]
    simp [rl_window]
  rw [h3]
  omega

/-- C4 (amended): the limiter never withholds a call — every submission is
issued, the window test only decides whether a short bounded sleep precedes
it — and in particular the first `rl_ceiling + 1` back-to-back submissions
are all issued at clock 0 with no delay, so a rolling window can hold more
than the ceiling. -/
theorem C4_rate_limiter_amended :
    (∀ minDelay jitter n, ((rl_run minDelay jitter n).2).length = n) ∧
    (∀ minDelay jitter i, i ≤ rl_ceiling + 1 →
      (rl_run minDelay jitter i).2 = List.replicate i 0) := by
  constructor
  · intro md j n
    induction n with
    | zero => rfl
    | succ n ih =>
      rw [rl_run]
      simp [ih]
  · intro md j i hi
    rw [rl_run_first_calls md j i hi]

/-- Witness for the amended C4 at `minDelay = 1/10`, `jitter = 0`,
`i = rl_ceiling + 1`. -/
theorem C4_rate_limiter_amended_witness :
    rl_ceiling + 1 ≤ rl_ceiling + 1 ∧
      (rl_run (1 / 10) 0 (rl_ceiling + 1)).2 = List.replicate (rl_ceiling + 1) 0 :=
  ⟨le_rfl, C4_rate_limiter_amended.2 (1 / 10) 0 (rl_ceiling + 1) le_rfl⟩

/- ## Claim C10 -/

/-- C10: a PDF rendering to more than 2 pages submits exactly its first
`page_count - 2` pages (as page numbers `1, …, page_count - 2`), records
`pages_skipped = 2`, and the merged output's rows come only from the
submitted units; a PDF with at most 2 pages submits all pages with
`pages_skipped = 0`. -/
theorem C10_last_two_pages_never_attempted (pageFiles : List String) :
    (2 < pageFiles.length →
      pages_to_process pageFiles = pageFiles.take (pageFiles.length - 2) ∧
      (pages_to_process pageFiles).length = pageFiles.length - 2 ∧
      pages_skipped pageFiles = 2 ∧
      (∀ p ∈ submittedPageNums pageFiles, p ≤ pageFiles.length - 2)) ∧
    (pageFiles.length ≤ 2 →
      pages_to_process pageFiles = pageFiles ∧ pages_skipped pageFiles = 0) ∧
    (∀ (us : List PageData) (c : List (Nat × Option PageData)),
      us.length = (pages_to_process pageFiles).length →
      c.Perm (submissionList 1 us) →
      (mergeResults c).serialDetails = us.flatMap (fun u => u.serialDetails)) := by
  refine ⟨?_, ?_, fun us _ _ h => mergeResults_perm_submission us h⟩
  · intro hgt
    have hp : pages_to_process pageFiles = pageFiles.take (pageFiles.length - 2) := by
      simp [pages_to_process, hgt]
    have hlen : (pages_to_process pageFiles).length = pageFiles.length - 2 := by
      rw [hp, List.length_take]
      omega
    refine ⟨hp, hlen, ?_, ?_⟩
    · rw [pages_skipped, hlen]
      omega
    · intro p hp'
      simp only [submittedPageNums, List.mem_map, List.mem_range] at hp'
      obtain ⟨i, hi, rfl⟩ := hp'
      omega
  · intro hle
    have hp : pages_to_process pageFiles = pageFiles := by
      simp [pages_to_process, Nat.not_lt.mpr hle]
    exact ⟨hp, by rw [pages_skipped, hp]; omega⟩

/-- Witness for C10: a 4-page PDF submits pages 1 and 2 only, skipping 2
pages, and its merged rows come from the two submitted units. -/
theorem C10_last_two_pages_never_attempted_witness :
    (2 < ([("p1"), ("p2"), ("p3"), ("p4")] : List String).length ∧
      pages_skipped [("p1"), ("p2"), ("p3"), ("p4")] = 2 ∧
      pages_to_process [("p1"), ("p2"), ("p3"), ("p4")] = [("p1"), ("p2")]) ∧
    (mergeResults [(2, some pdB), (1, some pdA)]).serialDetails =
      [pdA, pdB].flatMap (fun u => u.serialDetails) := by
  refine ⟨⟨by decide, ?_, ?_⟩, ?_⟩
  · exact ((C10_last_two_pages_never_attempted [("p1"), ("p2"), ("p3"), ("p4")]).1
      (by decide)).2.2.1
  · have h := ((C10_last_two_pages_never_attempted [("p1"), ("p2"), ("p3"), ("p4")]).1
      (by decide)).1
    rw [h]
    decide
  · exact (C10_last_two_pages_never_attempted [("p1"), ("p2"), ("p3"), ("p4")]).2.2
      [pdA, pdB] [(2, some pdB), (1, some pdA)] (by decide) (by decide)

/- ## Quality checker (`QualityChecker.assess_json_quality`, quality_checker.py) -/

/-- Python truthiness of an optional numeric field (`None` and `0` are
falsy). -/
def truthyNat : Option Nat → Bool
  | none => false
  | some n => !(n == 0)

/-- Python truthiness of an optional string field (`None` and the empty
string are falsy). -/
def truthyStr : Option String → Bool
  | none => false
  | some s => !(s == "")

/-- One `serial_no_wise_details` entry as read by the quality checker. -/
structure StationEntry where
  candidateVotes : List Nat
deriving DecidableEq

/-- The fields of one parsed `AC_*.json` document that
`assess_json_quality` reads. -/
structure AcJson where
  acNumber : Option Nat
  totalElectors : Option Nat
  serialDetails : List StationEntry
  candidates : List String
  electedPerson : Option String
deriving DecidableEq

/-- The assessment record built by `assess_json_quality` (the fields its
verdict logic writes and reads). -/
structure Assessment where
  qualityScore : Nat
  issues : List String
  pollingStations : Bool
  candidatesList : Bool
  needsReprocessing : Bool
  qualityCategory : String
deriving DecidableEq

/-- The quality categorisation at the end of `assess_json_quality`,
computed from the accumulated score. -/
def qualityCategoryOf (score : Nat) : String :=
  if 80 ≤ score then ("Excellent")
  else if 60 ≤ score then ("Good")
  else if 40 ≤ score then ("Fair")
  else ("Poor")

/-- `assess_json_quality`: accumulate 10 points for a truthy constituency
number, 10 for truthy total electors, 30 for a non-empty station list plus
20 when at least one station has candidate votes, 20 for a non-empty
candidates list and 10 for a truthy elected person, appending an issue for
each missed criterion; then `needs_reprocessing` is set when the score is
below 50 OR there are no stations OR no candidates, and the category is cut
at 80/60/40. -/
def assess_json_quality (d : AcJson) : Assessment :=
  let score1 : Nat := if truthyNat d.acNumber then 10 else 0
  let issues1 : List String :=
    if truthyNat d.acNumber then [] else [("Missing constituency number")]
  let score2 := if truthyNat d.totalElectors then score1 + 10 else score1
  let issues2 :=
    if truthyNat d.totalElectors then issues1 else issues1 ++ [("Missing total electors")]
  let stations := !d.serialDetails.isEmpty
  let stationsWithVotes := d.serialDetails.countP (fun st => !st.candidateVotes.isEmpty)
  let score3 :=
    if stations then
      (if 0 < stationsWithVotes then score2 + 30 + 20 else score2 + 30)
    else score2
  let issues3 :=
    if stations then
      (if 0 < stationsWithVotes then issues2
       else issues2 ++ [("Polling stations missing candidate votes")])
    else issues2 ++ [("No polling station details extracted")]
  let cands := !d.candidates.isEmpty
  let score4 := if cands then score3 + 20 else score3
  let issues4 := if cands then issues3 else issues3 ++ [("No candidates list extracted")]
  let elected := truthyStr d.electedPerson
  let score5 := if elected then score4 + 10 else score4
  let issues5 := if elected then issues4 else issues4 ++ [("No elected person identified")]
  let needs := decide (score5 < 50) || !stations || !cands
  { qualityScore := score5, issues := issues5, pollingStations := stations,
    candidatesList := cands, needsReprocessing := needs,
    qualityCategory := qualityCategoryOf score5 }

/-- A document with constituency number, electors and voted stations but no
candidates list: score 70 yet flagged for reprocessing. -/
def acHighScoreNoCands : AcJson := ⟨some 1, some 100, [⟨[5]⟩], [], none⟩

/-- A document with voted stations and a candidates list but no header
fields: score 70 and not flagged for reprocessing. -/
def acHighScoreWithCands : AcJson := ⟨none, none, [⟨[5]⟩], [("X")], none⟩

lemma qualityCategoryOf_iff (s : Nat) :
    (qualityCategoryOf s = "Excellent" ↔ 80 ≤ s) ∧
    (qualityCategoryOf s = "Good" ↔ 60 ≤ s ∧ s < 80) ∧
    (qualityCategoryOf s = "Fair" ↔ 40 ≤ s ∧ s < 60) ∧
    (qualityCategoryOf s = "Poor" ↔ s < 40) := by
  unfold qualityCategoryOf
  split_ifs with h1 h2 h3 <;> simp_all <;> omega

/- ## Claim C5 -/

/-- C5 as stated is FALSE: the verdict is not determined by cut points on
the score alone — two documents with the same completeness score 70 get
opposite reprocessing verdicts, because the verdict also tests the
structural presence of the polling-station list and the candidates list. -/
theorem C5_counterexample :
    (assess_json_quality acHighScoreNoCands).qualityScore = 70 ∧
    (assess_json_quality acHighScoreWithCands).qualityScore = 70 ∧
    (assess_json_quality acHighScoreNoCands).needsReprocessing = true ∧
    (assess_json_quality acHighScoreWithCands).needsReprocessing = false := by
  decide

/-- C5 (amended): the checker's verdict is the boolean
`needs_reprocessing`, true exactly when the score is below 50 or the
polling-station list is empty or the candidates list is empty (so it is not
a function of the score alone); separately, the four-way quality category
is determined by the cut points 80/60/40 on the score. -/
theorem C5_quality_verdict_amended (d : AcJson) :
    (assess_json_quality d).qualityScore =
      (if truthyNat d.acNumber then 10 else 0) +
      (if truthyNat d.totalElectors then 10 else 0) +
      (if d.serialDetails.isEmpty then 0 else
        30 + (if 0 < d.serialDetails.countP (fun st => !st.candidateVotes.isEmpty)
              then 20 else 0)) +
      (if d.candidates.isEmpty then 0 else 20) +
      (if truthyStr d.electedPerson then 10 else 0) ∧
    (assess_json_quality d).needsReprocessing =
      (decide ((assess_json_quality d).qualityScore < 50) || d.serialDetails.isEmpty ||
        d.candidates.isEmpty) ∧
    ((assess_json_quality d).qualityCategory = "Excellent" ↔
      80 ≤ (assess_json_quality d).qualityScore) ∧
    ((assess_json_quality d).qualityCategory = "Good" ↔
      60 ≤ (assess_json_quality d).qualityScore ∧ (assess_json_quality d).qualityScore < 80) ∧
    ((assess_json_quality d).qualityCategory = "Fair" ↔
      40 ≤ (assess_json_quality d).qualityScore ∧ (assess_json_quality d).qualityScore < 60) ∧
    ((assess_json_quality d).qualityCategory = "Poor" ↔
      (assess_json_quality d).qualityScore < 40) := by
  have hcat : (assess_json_quality d).qualityCategory =
      qualityCategoryOf (assess_json_quality d).qualityScore := by
    unfold assess_json_quality
    rfl
  refine ⟨?_, ?_, ?_, ?_, ?_, ?_⟩
  · unfold assess_json_quality
    by_cases h1 : truthyNat d.acNumber <;>
      by_cases h2 : truthyNat d.totalElectors <;>
      by_cases h3 : d.serialDetails.isEmpty <;>
      by_cases h4 : 0 < d.serialDetails.countP (fun st => !st.candidateVotes.isEmpty) <;>
      by_cases h5 : d.candidates.isEmpty <;>
      by_cases h6 : truthyStr d.electedPerson <;>
      simp [h1, h2, h3, h4, h5, h6]
  · unfold assess_json_quality
    by_cases h3 : d.serialDetails.isEmpty <;>
      by_cases h5 : d.candidates.isEmpty <;>
      simp [h3, h5]
  · rw [hcat]
    exact (qualityCategoryOf_iff _).1
  · rw [hcat]
    exact (qualityCategoryOf_iff _).2.1
  · rw [hcat]
    exact (qualityCategoryOf_iff _).2.2.1
  · rw [hcat]
    exact (qualityCategoryOf_iff _).2.2.2

/- ## PDF classifier (`PDFClassifier`, scripts/pdf_classifier.py) -/

/-- The analysis dict of `PDFClassifier.analyze_pdf` (the fields that
`determine_tier` reads). -/
structure PdfCharacteristics where
  pageCount : Nat
  hasText : Bool
  textPercentage : ℚ
  hasImages : Bool
  imagePercentage : ℚ
  isScanned : Bool
  hasTables : Bool
  language : String
  hasDevanagari : Bool
  rotationDetected : Bool
  textExtractionQuality : String
deriving DecidableEq

/-- `PDFClassifier.determine_tier`: a three-branch decision tree over the
analysis, returning `(tier, confidence, extraction_method)` with hard-coded
per-branch confidences. -/
def determine_tier (a : PdfCharacteristics) : Nat × ℚ × String :=
  if a.hasText &&
      (a.textExtractionQuality == "good" || a.textExtractionQuality == "medium") &&
      (a.language == "english" || a.language == "english_primary") &&
      !a.rotationDetected && !a.isScanned then
    (1, if a.textExtractionQuality == "good" then 95 / 100 else 85 / 100,
      ("standard_extraction"))
  else if a.hasText && a.hasDevanagari && !a.isScanned &&
      !(a.textExtractionQuality == "poor") then
    (2, if a.language == "mixed" then 8 / 10 else 75 / 100, ("devanagari_extraction"))
  else
    (3, if a.hasImages then 6 / 10 else 4 / 10, ("ocr_extraction"))

/-- The classification dict built by `PDFClassifier.classify_single_pdf`. -/
structure Classification where
  filePath : String
  district : String
  tier : Option Nat
  characteristics : Option PdfCharacteristics
  confidence : ℚ
  extractionMethod : Option String
  error : Option String
deriving DecidableEq

/-- The keys present in the classification dict: the six keys of the
literal at the top of `classify_single_pdf`, plus `error` when the
`except` branch ran. -/
def classificationKeys (c : Classification) : List String :=
  [("file_path"), ("district"), ("tier"), ("characteristics"), ("confidence"),
   ("extraction_method")] ++ (if c.error.isSome then [("error")] else [])

/-- `PDFClassifier.classify_single_pdf`: analyse the document and apply
`determine_tier`; if opening/analysing the PDF raises (modelled by `none`),
default `tier` to 3 with method `"OCR"`, record the error and leave the
initial `confidence = 0.0` untouched. -/
def classify_single_pdf (filePath district : String) (analysis : Option PdfCharacteristics)
    (errMsg : String) : Classification :=
  match analysis with
  | some a =>
    { filePath := filePath, district := district, tier := some (determine_tier a).1,
      characteristics := some a, confidence := (determine_tier a).2.1,
      extractionMethod := some (determine_tier a).2.2, error := none }
  | none =>
    { filePath := filePath, district := district, tier := some 3,
      characteristics := none, confidence := 0,
      extractionMethod := some ("OCR"), error := some errMsg }

/-- `PDFClassifier.classify_all_pdfs` over a prepared corpus: every PDF in
the list gets exactly one entry in `self.classifications`, keyed by its AC
number (each input: AC number, file path, district, analysis-or-raise,
error message). -/
def classify_all_pdfs
    (pdfs : List (String × String × String × Option PdfCharacteristics × String)) :
    List (String × Classification) :=
  pdfs.map (fun p => (p.1, classify_single_pdf p.2.1 p.2.2.1 p.2.2.2.1 p.2.2.2.2))

/-- A borderline tier-1 analysis (medium text quality): the decision tree
returns the hard-coded confidence 0.85. -/
def borderlineAnalysis : PdfCharacteristics :=
  { pageCount := 4, hasText := true, textPercentage := 40, hasImages := false,
    imagePercentage := 0, isScanned := false, hasTables := true,
    language := ("english"), hasDevanagari := false, rotationDetected := false,
    textExtractionQuality := ("medium") }

/- ## Claim C6 -/

/-- C6 as stated is FALSE: on a borderline analysis the classifier returns
the hard-coded branch confidence 0.85 (no per-tier scores are computed to
compare against a margin), and the returned classification has no
`needs_manual_review` field at all. -/
theorem C6_counterexample :
    (classify_single_pdf ("AC_216.pdf") ("Pune") (some borderlineAnalysis)
      "").confidence = 85 / 100 ∧
    "needs_manual_review" ∉
      classificationKeys
        (classify_single_pdf ("AC_216.pdf") ("Pune") (some borderlineAnalysis) "") := by
  constructor
  · simp [classify_single_pdf, determine_tier, borderlineAnalysis]
  · simp [classify_single_pdf, classificationKeys]

/-- C6 (amended): `determine_tier` is a fixed three-branch decision tree —
tier 1 exactly when the text is extractable with good/medium quality in
English without rotation or scanning, tier 2 exactly when the tier-1 test
fails but extractable Devanagari text of non-poor quality is present, and
tier 3 otherwise; the confidence is one of the six hard-coded branch
constants (not a computed tier score), it is copied into the
classification, and no `needs_manual_review` field exists in the
classification. -/
theorem C6_classifier_amended (fp district : String) (a : PdfCharacteristics) (e : String) :
    ((determine_tier a).1 = 1 ↔
      (a.hasText &&
        (a.textExtractionQuality == "good" || a.textExtractionQuality == "medium") &&
        (a.language == "english" || a.language == "english_primary") &&
        !a.rotationDetected && !a.isScanned) = true) ∧
    ((determine_tier a).1 = 2 ↔
      ¬(a.hasText &&
        (a.textExtractionQuality == "good" || a.textExtractionQuality == "medium") &&
        (a.language == "english" || a.language == "english_primary") &&
        !a.rotationDetected && !a.isScanned) = true ∧
      (a.hasText && a.hasDevanagari && !a.isScanned &&
        !(a.textExtractionQuality == "poor")) = true) ∧
    ((determine_tier a).1 = 3 ↔
      ¬(a.hasText &&
        (a.textExtractionQuality == "good" || a.textExtractionQuality == "medium") &&
        (a.language == "english" || a.language == "english_primary") &&
        !a.rotationDetected && !a.isScanned) = true ∧
      ¬(a.hasText && a.hasDevanagari && !a.isScanned &&
        !(a.textExtractionQuality == "poor")) = true) ∧
    (determine_tier a).2.1 ∈ ([95 / 100, 85 / 100, 8 / 10, 75 / 100, 6 / 10, 4 / 10] : List ℚ) ∧
    (classify_single_pdf fp district (some a) e).confidence = (determine_tier a).2.1 ∧
    "needs_manual_review" ∉
      classificationKeys (classify_single_pdf fp district (some a) e) := by
  refine ⟨?_, ?_, ?_, ?_, rfl, ?_⟩
  · unfold determine_tier
    split_ifs with h1 h2 <;> simp_all
  · unfold determine_tier
    split_ifs with h1 h2 <;> simp_all
  · unfold determine_tier
    split_ifs with h1 h2 <;> simp_all
  · unfold determine_tier
    split_ifs <;> simp
  · simp [classify_single_pdf, classificationKeys]

/- ## Claim C9 -/

/-- C9 as stated is FALSE in its routing clause: a document whose content
analysis raises is returned as a sentinel with confidence 0 (that part
holds), but it is assigned tier 3 with extraction method `"OCR"` — routed
to the OCR tier, not to manual review; no manual-review marker exists in
the classification. -/
theorem C9_counterexample :
    classify_single_pdf ("AC_broken.pdf") ("Pune") none ("cannot open broken file") =
      { filePath := ("AC_broken.pdf"), district := ("Pune"), tier := some 3,
        characteristics := none, confidence := 0, extractionMethod := some ("OCR"),
        error := some ("cannot open broken file") } ∧
    "needs_manual_review" ∉
      classificationKeys
        (classify_single_pdf ("AC_broken.pdf") ("Pune") none ("cannot open broken file")) := by
  decide

/-- C9 (amended): a corrupt/unreadable document yields a sentinel
classification with confidence 0, tier defaulted to 3 with method `"OCR"`
and the error recorded, and `classify_all_pdfs` keeps exactly one
classification entry per input document (nothing is silently dropped); the
document is routed to the OCR tier rather than to manual review. -/
theorem C9_corrupt_document_amended (fp district e : String) :
    (classify_single_pdf fp district none e).confidence = 0 ∧
    (classify_single_pdf fp district none e).tier = some 3 ∧
    (classify_single_pdf fp district none e).extractionMethod = some ("OCR") ∧
    (classify_single_pdf fp district none e).error = some e ∧
    (∀ pdfs, (classify_all_pdfs pdfs).map Prod.fst = pdfs.map Prod.fst) :=
  ⟨rfl, rfl, rfl, rfl, fun pdfs => by simp [classify_all_pdfs]⟩

/- ## Orchestrator and progress manager (scripts/main_extractor.py,
scripts/progress_manager.py) -/

/-- One per-PDF tracking record (`progress["pdfs"][ac_number]`). -/
structure PdfInfo where
  id : Nat
  district : String
  tier : Option Nat
  status : String
  extractionTimestamp : Option Nat
  recordCount : Option Nat
  qualityScore : Option ℚ
  manualVerified : Bool
  errors : List String
  retryCount : Nat
deriving DecidableEq

/-- The extraction configuration (`config/extraction_config.json`): the
fields `extract_pdf` reads. -/
structure ExtractionConfig where
  maxRetries : Nat
  qualityThreshold : ℚ
deriving DecidableEq

/-- The corresponding fields of the default configuration written by
`load_config`. -/
def default_config : ExtractionConfig := ⟨3, 85 / 100⟩

/-- What a tier strategy's `extract` call can do for the orchestrator:
return a result (carrying the record count and the completeness score the
validator assigns to that result) or raise an exception. -/
inductive StrategyOutcome where
  | ok (recordCount : Nat) (score : ℚ) (errDesc : String)
  | raised (msg : String)

/-- The validation verdict consumed by `extract_pdf`. -/
structure ValidationOutcome where
  isValid : Bool
  qualityScore : ℚ
  errDesc : String
deriving DecidableEq

/-- Modelled from the spec: the `validator.py` module imported by
`Form20Extractor.validate_extraction` is not part of the repository
snapshot (only its caller is).  Per the spec — §4.5 "score >=
accept_threshold → Accept" and §4.2 "InProgress → Completed: extraction
succeeded AND Quality Validator verdict is Accept" — `is_valid` holds
exactly when the result's completeness score reaches the configured
quality threshold. -/
def validate (threshold : ℚ) (score : ℚ) (errDesc : String) : ValidationOutcome :=
  ⟨decide (threshold ≤ score), score, errDesc⟩

/-- `Form20Extractor.extract_pdf` acting on one tracking record: record
the classified tier; on a successful strategy call validate the result,
then either mark the record completed with the validated quality score, or
send it to manual review (score below threshold) or to failed (recording
the validator's errors); on a raised exception append the error message,
increment `retry_count` and either re-queue the record as pending or mark
it failed once `max_retries` is reached.  Returns the success flag and the
updated record. -/
def extract_pdf (cfg : ExtractionConfig) (now : Nat) (tier : Nat)
    (outcome : StrategyOutcome) (info : PdfInfo) : Bool × PdfInfo :=
  let info := { info with tier := some tier }
  match outcome with
  | .ok rc score errDesc =>
    let v := validate cfg.qualityThreshold score errDesc
    if v.isValid then
      (true, { info with
        status := "completed", recordCount := some rc,
        qualityScore := some v.qualityScore, extractionTimestamp := some now })
    else if v.qualityScore < cfg.qualityThreshold then
      (false, { info with status := "manual_review", qualityScore := some v.qualityScore })
    else
      (false, { info with status := "failed", errors := info.errors ++ [v.errDesc] })
  | .raised msg =>
    let info := { info with
      errors := info.errors ++ [msg], retryCount := info.retryCount + 1 }
    if info.retryCount < cfg.maxRetries then
      (false, { info with status := "pending" })
    else
      (false, { info with status := "failed" })

/-- `ProgressManager.mark_complete`: manually mark a record completed with
the given record count and quality score, setting `manual_verified = True`. -/
def mark_complete (now : Nat) (rc : Nat) (q : ℚ) (info : PdfInfo) : PdfInfo :=
  { info with
    status := "completed", recordCount := some rc, qualityScore := some q,
    extractionTimestamp := some now, manualVerified := true }

/-- `ProgressManager.reset_pdf`: reset a record to pending, zeroing
`retry_count`, clearing the error list and wiping the extraction fields. -/
def reset_pdf (info : PdfInfo) : PdfInfo :=
  { info with
    status := "pending", retryCount := 0, errors := [],
    extractionTimestamp := none, recordCount := none, qualityScore := none }

/-- The top-level progress store (`tracking/extraction_progress.json`):
the fields the startup and claiming logic read. -/
structure Progress where
  totalPdfs : Nat
  lastProcessed : Option String
  pdfs : List (String × PdfInfo)
deriving DecidableEq

/-- A fresh tracking record as written by `initialize_pdf_tracking`. -/
def initial_pdf_info (id : Nat) (district : String) : PdfInfo :=
  { id := id, district := district, tier := none, status := "pending",
    extractionTimestamp := none, recordCount := none, qualityScore := none,
    manualVerified := false, errors := [], retryCount := 0 }

/-- The per-document loop of `initialize_pdf_tracking`: ids assigned in
scan order starting from `i`. -/
def trackingEntries : Nat → List (String × String) → List (String × PdfInfo)
  | _, [] => []
  | i, e :: rest => (e.1, initial_pdf_info i e.2) :: trackingEntries (i + 1) rest

/-- `initialize_pdf_tracking` over the scanned corpus (one `(ac_number,
district)` pair per discovered PDF, in scan order). -/
def initialize_pdf_tracking (docs : List (String × String)) : Progress :=
  { totalPdfs := docs.length, lastProcessed := none, pdfs := trackingEntries 1 docs }

/-- `Form20Extractor.load_progress`: when a persisted progress file
exists, its contents are returned verbatim; otherwise a fresh tracking
structure is initialised from the scanned corpus. -/
def load_progress (persisted : Option Progress) (docs : List (String × String)) : Progress :=
  match persisted with
  | some p => p
  | none => initialize_pdf_tracking docs

/-- `Form20Extractor.get_next_pending_pdf`: the key of the first record
whose status is `"pending"`, if any. -/
def get_next_pending_pdf (p : Progress) : Option String :=
  (p.pdfs.find? (fun e => e.2.status == "pending")).map Prod.fst

/-- A persisted registry as left by a crashed run: one completed document
and one still claimed as `in_progress`. -/
def crashedProgress : Progress :=
  { totalPdfs := 2, lastProcessed := some ("AC_01"),
    pdfs :=
      [(("AC_01"), { initial_pdf_info 1 ("Nandurbar") with
          status := "completed", qualityScore := some 1, recordCount := some 10,
          manualVerified := true }),
       (("AC_02"), { initial_pdf_info 2 ("Nandurbar") with status := "in_progress" })] }

/- ## Claim C1 -/

/-- C1: for every document record, after every operation that can set
`status = "completed"` the invariant holds — after `extract_pdf` a
completed record carries a quality score at least the configured threshold
(or is manually verified), and `mark_complete` completes the record with
`manual_verified = true`. -/
theorem C1_completed_implies_quality_or_verified
    (cfg : ExtractionConfig) (now : Nat) (tier : Nat) (outcome : StrategyOutcome)
    (info : PdfInfo) (rc : Nat) (q : ℚ) :
    ((extract_pdf cfg now tier outcome info).2.status = "completed" →
      (∃ s, (extract_pdf cfg now tier outcome info).2.qualityScore = some s ∧
        cfg.qualityThreshold ≤ s) ∨
      (extract_pdf cfg now tier outcome info).2.manualVerified = true) ∧
    ((mark_complete now rc q info).status = "completed" ∧
      (mark_complete now rc q info).manualVerified = true) := by
  refine ⟨?_, rfl, rfl⟩
  intro hst
  cases outcome with
  | ok rc' score errDesc =>
    by_cases hv : cfg.qualityThreshold ≤ score
    · left
      exact ⟨score, by simp [extract_pdf, validate, hv], hv⟩
    · exfalso
      have hlow : score < cfg.qualityThreshold := lt_of_not_le hv
      simp [extract_pdf, validate, hv, hlow] at hst
  | raised msg =>
    exfalso
    by_cases hret : info.retryCount + 1 < cfg.maxRetries <;>
      simp [extract_pdf, hret] at hst

/-- Witness for C1: with the default configuration, a validated result
scoring 0.9 completes the record, and the completed record's score is at
least the 0.85 threshold. -/
theorem C1_completed_implies_quality_or_verified_witness :
    (extract_pdf default_config 0 1 (.ok 10 (9 / 10) "") (initial_pdf_info 1 ("Pune"))).2.status
        = "completed" ∧
    ((∃ s, (extract_pdf default_config 0 1 (.ok 10 (9 / 10) "")
        (initial_pdf_info 1 ("Pune"))).2.qualityScore = some s ∧
        default_config.qualityThreshold ≤ s) ∨
      (extract_pdf default_config 0 1 (.ok 10 (9 / 10) "")
        (initial_pdf_info 1 ("Pune"))).2.manualVerified = true) := by
  have hle : (85 / 100 : ℚ) ≤ 9 / 10 := by norm_num
  have hst : (extract_pdf default_config 0 1 (.ok 10 (9 / 10) "")
      (initial_pdf_info 1 ("Pune"))).2.status = "completed" := by
    simp [extract_pdf, validate, default_config, hle]
  exact ⟨hst,
    (C1_completed_implies_quality_or_verified default_config 0 1 (.ok 10 (9 / 10) "")
      (initial_pdf_info 1 ("Pune")) 10 (9 / 10)).1 hst⟩

/- ## Claim C7 -/

/-- C7 as stated is FALSE: `reset_pdf` (one of the run's registry
operations) sets `retry_count` back to 0, strictly decreasing it on a
record whose `retry_count` is 1. -/
theorem C7_counterexample :
    (reset_pdf { initial_pdf_info 1 ("Pune") with retryCount := 1 }).retryCount <
      ({ initial_pdf_info 1 ("Pune") with retryCount := 1 } : PdfInfo).retryCount := by
  decide

/-- C7 (amended): `retry_count` never decreases under the orchestrator's
extraction attempts (`extract_pdf` leaves it unchanged or increments it)
and `mark_complete` preserves it, but the manual `reset_pdf` operation
resets it to 0 — so monotonicity holds only for runs that never invoke
`reset_pdf`. -/
theorem C7_retry_count_monotone_amended (cfg : ExtractionConfig) (now : Nat) (tier : Nat)
    (outcome : StrategyOutcome) (rc : Nat) (q : ℚ) (info : PdfInfo) :
    info.retryCount ≤ (extract_pdf cfg now tier outcome info).2.retryCount ∧
    (mark_complete now rc q info).retryCount = info.retryCount ∧
    (reset_pdf info).retryCount = 0 := by
  refine ⟨?_, rfl, rfl⟩
  cases outcome with
  | ok rc' score errDesc =>
    by_cases hv : cfg.qualityThreshold ≤ score
    · simp [extract_pdf, validate, hv]
    · have hlow : score < cfg.qualityThreshold := lt_of_not_le hv
      simp [extract_pdf, validate, hv, hlow]
  | raised msg =>
    by_cases hret : info.retryCount + 1 < cfg.maxRetries <;>
      simp [extract_pdf, hret]

/- ## Claim C8 -/

/-- C8 as stated is FALSE: loading the persisted registry of a crashed run
returns it verbatim — the document left `in_progress` is not reset to
pending, and since only `"pending"` documents are claimed, nothing in this
registry is ever claimed again. -/
theorem C8_counterexample :
    load_progress (some crashedProgress) [] = crashedProgress ∧
    crashedProgress.pdfs.map (fun e => e.2.status) = [("completed"), ("in_progress")] ∧
    get_next_pending_pdf (load_progress (some crashedProgress) []) = none := by
  refine ⟨rfl, rfl, ?_⟩
  decide

/-- C8 (amended): on startup the orchestrator resumes from the persisted
registry verbatim (completed documents are intact, but `in_progress`
documents are NOT reset to pending — no reset occurs at all), and the
claiming step only ever selects a record whose status is `"pending"`, so an
interrupted `in_progress` document is never claimed again. -/
theorem C8_startup_resume_amended :
    (∀ (p : Progress) (docs : List (String × String)), load_progress (some p) docs = p) ∧
    (∀ (p : Progress) (ac : String), get_next_pending_pdf p = some ac →
      ∃ info, (ac, info) ∈ p.pdfs ∧ info.status = "pending") := by
  constructor
  · intro p docs
    rfl
  · intro p ac h
    simp only [get_next_pending_pdf, Option.map_eq_some'] at h
    obtain ⟨⟨a1, a2⟩, he, hfst⟩ := h
    cases hfst
    exact ⟨a2, List.mem_of_find?_eq_some he, by simpa using List.find?_some he⟩

/-- Witness for the amended C8: a freshly initialised one-document corpus
is claimed through its pending record. -/
theorem C8_startup_resume_amended_witness :
    get_next_pending_pdf (initialize_pdf_tracking [(("AC_01"), ("Pune"))]) = some ("AC_01") ∧
    ∃ info, (("AC_01"), info) ∈ (initialize_pdf_tracking [(("AC_01"), ("Pune"))]).pdfs ∧
      info.status = "pending" := by
  have h : get_next_pending_pdf (initialize_pdf_tracking [(("AC_01"), ("Pune"))]) =
      some ("AC_01") := by
    decide
  exact ⟨h, C8_startup_resume_amended.2 (initialize_pdf_tracking [(("AC_01"), ("Pune"))])
    ("AC_01") h⟩
